import Mathlib

/-!
Verification of the XL lexical core (`scanner.c`, `name.c`, `error.c`,
`blob.h`) against its natural-language specification.

The scanner is modelled as a pure state machine.  The byte reader is a
`List Int` of byte values (0..255); end of input is `-1`, matching C's
`EOF`.  The scanner is modelled in syntax-discovery mode (`syntax == NULL`
in `scanner_new`), the configuration in which the operator table plays no
role.  Machine integers are modelled as `Nat` with explicit `% 2 ^ 64`
(`unsigned long long natural_value`) and `% 2 ^ 32` (`uint32_t
blob_chunk`, `unsigned exponent`, `unsigned base`) where overflow matters.

C loops are translated to structurally recursive functions on an explicit
fuel argument; every loop of the source consumes at least one input byte
per iteration (or terminates at EOF within two iterations), so the fuel
`scan_fuel` chosen at each call site is never exhausted; the preservation
lemmas proved below hold for every fuel value.
-/

namespace XL

/-- The token_t enumeration returned by scanner_read. -/
inductive Token where
  | tokEOF | tokNEWLINE | tokINDENT | tokUNINDENT
  | tokINTEGER | tokREAL | tokCHARACTER | tokTEXT | tokBLOB
  | tokNAME | tokSYMBOL | tokOPEN | tokCLOSE | tokERROR
deriving DecidableEq

/-- The scanned-value channel (union scanned in scanner_t).  The numeric
value of a REAL is a C double and is not modelled; only the fact that a
real was scanned is recorded. -/
inductive Scanned where
  | none
  | natural (value : Nat)
  | real
  | character (code : Nat)
  | text (bytes : List Int)
  | name (bytes : List Int)
  | blob (bytes : List Nat)
deriving DecidableEq

/-- The scanner state (scanner_t), together with the remaining input of
the byte reader and the messages passed to the error sink. -/
structure ScanState where
  stream : List Int
  reader : Bool
  pending0 : Int
  pending1 : Int
  position : Nat
  source : List Int
  scanned : Scanned
  indents : List Nat
  indent : Nat
  column : Nat
  indentChar : Int
  checkingIndent : Bool
  settingIndent : Bool
  hadSpaceBefore : Bool
  hadSpaceAfter : Bool
  errors : List (Nat × String)
deriving DecidableEq

/-- C ctype isspace restricted to the ASCII bytes the scanner reads;
isspace(EOF) is 0. -/
def isspace (c : Int) : Bool :=
  c = 32 ∨ c = 9 ∨ c = 10 ∨ c = 11 ∨ c = 12 ∨ c = 13

/-- C ctype isdigit. -/
def isdigit (c : Int) : Bool := 48 ≤ c ∧ c ≤ 57

/-- C ctype isalpha (ASCII). -/
def isalpha (c : Int) : Bool := (65 ≤ c ∧ c ≤ 90) ∨ (97 ≤ c ∧ c ≤ 122)

/-- C ctype isalnum (ASCII). -/
def isalnum (c : Int) : Bool := isalpha c || isdigit c

/-- C ctype ispunct (ASCII): printable, not alphanumeric, not space. -/
def ispunct (c : Int) : Bool :=
  (33 ≤ c ∧ c ≤ 47) ∨ (58 ≤ c ∧ c ≤ 64) ∨ (91 ≤ c ∧ c ≤ 96) ∨ (123 ≤ c ∧ c ≤ 126)

/-- C ctype tolower (ASCII). -/
def tolower (c : Int) : Int := if 65 ≤ c ∧ c ≤ 90 then c + 32 else c

/-- Modelled from the spec: `utf8.h` is not among the provided sources.
utf8_is_first recognizes the first byte of a multi-byte UTF-8 sequence. -/
def utf8_is_first (c : Int) : Bool := 192 ≤ c ∧ c ≤ 255

/-- Modelled from the spec: utf8_is_next recognizes a UTF-8 continuation
byte. -/
def utf8_is_next (c : Int) : Bool := 128 ≤ c ∧ c ≤ 191

/-- Modelled from the spec: utf8_isalpha accepts ASCII letters and, as an
approximation of the Unicode Letter category, any UTF-8 lead byte. -/
def utf8_isalpha (c : Int) : Bool := isalpha c || utf8_is_first c

/-- Modelled from the spec: utf8_length counts code points, i.e. the bytes
that are not continuation bytes. -/
def utf8_length (bytes : List Int) : Nat :=
  (bytes.filter (fun b => !(utf8_is_next b))).length

/-- Modelled from the spec: utf8_code decodes the first code point of the
byte sequence (ASCII bytes decode to themselves). -/
def utf8_code (bytes : List Int) : Nat :=
  match bytes with
  | [] => 0
  | b :: rest =>
    let b := (b % 256).toNat
    if b < 128 then b
    else if b < 224 then (rest.take 1).foldl (fun a x => a * 64 + (x % 64).toNat) (b % 32)
    else if b < 240 then (rest.take 2).foldl (fun a x => a * 64 + (x % 64).toNat) (b % 16)
    else (rest.take 3).foldl (fun a x => a * 64 + (x % 64).toNat) (b % 8)

/-- indents_top (blob.h blob_type macro): reads data[length-1].  On an
empty stack the C code indexes out of bounds (see claim C4); with the
struct layout the bytes read are the upper half of the zero length field,
so the model returns 0 there. -/
def indents_top (l : List Nat) : Nat := l.getLastD 0

/-- error(pos, message, ...) as observed by the scanner: the formatted
message, tagged with pos, is handed to the error sink (error.c errorv). -/
def error (pos : Nat) (msg : String) (s : ScanState) : ScanState :=
  { s with errors := s.errors ++ [(pos, msg)] }

/-- scanner_getchar: take a pending character if any, otherwise read one
byte from the stream; a short read clears the reader and yields EOF. -/
def scanner_getchar (s : ScanState) : Int × ScanState :=
  if s.pending0 ≠ 0 then
    (s.pending0, { s with pending0 := s.pending1, pending1 := 0 })
  else if ¬ s.reader then (-1, s)
  else
    match s.stream with
    | [] => (-1, { s with reader := false })
    | b :: rest => (b, { s with stream := rest })

/-- scanner_ungetchar: push a character back (at most two outstanding). -/
def scanner_ungetchar (s : ScanState) (c : Int) : ScanState :=
  { s with pending1 := s.pending0, pending0 := c }

/-- scanner_position: current position minus the pushed-back characters. -/
def scanner_position (s : ScanState) : Nat :=
  s.position - ((if s.pending0 ≠ 0 then 1 else 0) + (if s.pending1 ≠ 0 then 1 else 0))

/-- scanner_consume: append the character to the token spelling (when
non-zero) and step the position registry. -/
def scanner_consume (s : ScanState) (c : Int) : ScanState :=
  let s := if c ≠ 0 then { s with source := s.source ++ [c] } else s
  { s with position := s.position + 1 }

/-- scanner_nextchar: consume the current character and get the next. -/
def scanner_nextchar (s : ScanState) (c : Int) : Int × ScanState :=
  scanner_getchar (scanner_consume s c)

/-- Fuel bound for the scanner loops: each loop iteration consumes at
least one byte of pending/stream input, or terminates at EOF. -/
def scan_fuel (s : ScanState) : Nat := s.stream.length + 16

/-- The normalized-input check of scanner_normalize: the C recomputes
`normalized = relevant && c == tolower(c)` at every character instead of
accumulating it, so only the last character decides the outcome. -/
def norm_flag (src : List Int) : Bool :=
  src.foldl (fun _ c => (c != 95) && (c == tolower c)) true

/-- scanner_normalize: if the (buggy) normalized check succeeds, the input
spelling is returned unchanged (force-cast to a name); otherwise a new name
is built by skipping every underscore and lowercasing. -/
def scanner_normalize (src : List Int) : List Int :=
  if norm_flag src then src
  else (src.filter (fun c => c != 95)).map tolower

/-- Follows the spec's words (§3, Name normalization): the canonical form
strips every underscore and lowercases every ASCII letter.  Used only to
compare scanner_normalize against the specified normal form. -/
def name_normalize_spec (src : List Int) : List Int :=
  (src.filter (fun c => c != 95)).map tolower

/-- The alphabetic-name loop of name_is_valid (name.c): had_underscore
starts true and the loop runs over every byte including the first. -/
def name_valid_alpha : Bool → List Int → Bool
  | _, [] => true
  | had, c :: rest =>
    if (c == 95) && had then false
    else
      let had2 : Bool := c == 95
      if !had2 && !(isalnum c) then false
      else name_valid_alpha had2 rest

/-- name_is_valid (name.c): punctuation names are all-punctuation;
alphabetic names run the underscore loop; a single NL/TAB/BS byte is a
syntactic marker name. -/
def name_is_valid (data : List Int) : Bool :=
  match data with
  | [] => false
  | c :: rest =>
    if ispunct c then (c :: rest).all ispunct
    else if isalpha c then name_valid_alpha true (c :: rest)
    else if rest.isEmpty then c = 10 ∨ c = 9 ∨ c = 8
    else false

/-- scanner_character: decode the code point and report when the literal
does not contain exactly one code point (the C message is "Character
constant '%t' should contain one character"). -/
def scanner_character (pos : Nat) (text : List Int) (s : ScanState) : Nat × ScanState :=
  let code := utf8_code text
  let s :=
    if utf8_length text ≠ 1 then
      error pos "Character constant should contain one character" s
    else s
  (code, s)

/-- The whitespace-and-indentation loop of scanner_read (lines 315-340):
newlines restart column counting, spaces/tabs advance it while checking
indentation, and mixing tabs with spaces is reported. -/
def skip_spaces : Nat → Int → Nat → ScanState → Int × ScanState
  | 0, c, _, s => (c, s)
  | f + 1, c, pos, s =>
    if isspace c = true ∧ c ≠ -1 then
      let s := { s with hadSpaceBefore := true }
      let s :=
        if c = 10 then { s with checkingIndent := true, column := 0 }
        else if s.checkingIndent then
          let s :=
            if c = 32 ∨ c = 9 then
              if s.indentChar = 0 then { s with indentChar := c }
              else if s.indentChar ≠ c then
                error pos "Mixed tabs and spaces in indentation" s
              else s
            else s
          { s with column := s.column + 1 }
        else s
      let s := scanner_consume s (if c = 10 then c else 0)
      let r := scanner_getchar s
      skip_spaces f r.1 pos r.2
    else (c, s)

/-- The indentation decision of scanner_read (lines 343-394), entered when
checking_indent is set at the first non-space after a newline. -/
def scanner_indent_token (pos : Nat) (c : Int) (s : ScanState) : Token × ScanState :=
  let s := scanner_ungetchar s c
  let s := { s with checkingIndent := false }
  if s.settingIndent then
    let s := { s with indents := s.indents ++ [s.indent] }
    let s := { s with indent := s.column, settingIndent := false }
    (Token.tokNEWLINE, s)
  else if s.column > s.indent then
    let s := { s with indent := s.column }
    let s := { s with indents := s.indents ++ [s.indent] }
    (Token.tokINDENT, s)
  else if s.column < indents_top s.indents then
    let s := { s with indents := s.indents.dropLast }
    let s := { s with indent := s.column }
    if s.indents.length ≠ 0 ∧ indents_top s.indents < s.column then
      (Token.tokERROR, error pos "Unindenting to the right of previous indentation" s)
    else (Token.tokUNINDENT, s)
  else (Token.tokNEWLINE, s)

/-- The per-number scanning state local to scanner_read's number branch. -/
structure NumState where
  base : Nat
  blob_base : Nat
  natural_value : Nat
  floating_point : Bool
  blob_chunk : Nat
  blob_bits : Nat
  blob_digbits : Nat
  blob_maxbits : Nat
  base64 : Bool
  blob : Option (List Nat)
deriving DecidableEq

/-- The base_value digit table for bases 2..36 (0xFF marks a non-digit;
indexing the table with EOF is out of bounds in C and modelled as 0xFF). -/
def base_value (c : Int) : Nat :=
  if 48 ≤ c ∧ c ≤ 57 then (c - 48).toNat
  else if 65 ≤ c ∧ c ≤ 90 then (c - 65).toNat + 10
  else if 97 ≤ c ∧ c ≤ 122 then (c - 97).toNat + 10
  else 255

/-- The base64_value digit table. -/
def base64_value (c : Int) : Nat :=
  if 65 ≤ c ∧ c ≤ 90 then (c - 65).toNat
  else if 97 ≤ c ∧ c ≤ 122 then (c - 97).toNat + 26
  else if 48 ≤ c ∧ c ≤ 57 then (c - 48).toNat + 52
  else if c = 43 then 62
  else if c = 47 then 63
  else 255

/-- The digit_value pointer: base64_value once a base-64 prefix switched
the coding table, base_value otherwise. -/
def digit_value (num : NumState) (c : Int) : Nat :=
  if num.base64 then base64_value c else base_value c

/-- The bytes appended when a blob chunk is flushed: one byte in 8-bit
mode, three bytes (MSB first) in 24-bit mode. -/
def blob_flush (chunk : Nat) (maxbits : Nat) : List Nat :=
  if maxbits = 8 then [chunk % 256]
  else [chunk / 2 ^ 16 % 256, chunk / 2 ^ 8 % 256, chunk % 256]

/-- The end-of-blob padding loop: shift the partial chunk left until it
fills blob_maxbits. -/
def blob_pad : Nat → Nat → Nat → Nat → Nat → Nat
  | 0, chunk, _, _, _ => chunk
  | f + 1, chunk, bits, digbits, maxbits =>
    if bits < maxbits then
      blob_pad f ((chunk * 2 ^ digbits) % 2 ^ 32) (bits + digbits) digbits maxbits
    else chunk

/-- The whitespace skip inside blob digits (lines 498-501). -/
def blob_space_skip : Nat → Int → ScanState → Int × ScanState
  | 0, c, s => (c, s)
  | f + 1, c, s =>
    if c ≠ -1 ∧ isspace c = true then
      let r := scanner_nextchar s 0
      blob_space_skip f r.1 r.2
    else (c, s)

/-- The integral-part digit loop (lines 461-503): accumulate the natural
value, record blob digits (note that blob_bits is never reset when a chunk
is flushed), skip single underscores, and skip whitespace in blobs. -/
def digit_loop : Nat → Nat → Int → NumState → ScanState → Int × NumState × ScanState
  | 0, _, c, num, s => (c, num, s)
  | f + 1, pos, c, num, s =>
    if digit_value num c < num.base ∨ (num.blob.isSome ∧ digit_value num c < num.blob_base) then
      let d := digit_value num c
      let num := { num with natural_value := (num.base * num.natural_value + d) % 2 ^ 64 }
      let num :=
        match num.blob with
        | Option.none => num
        | Option.some bytes =>
          let chunk := (num.blob_chunk * 2 ^ num.blob_digbits + d) % 2 ^ 32
          let bits := num.blob_bits + num.blob_digbits
          let bytes :=
            if num.blob_maxbits ≤ bits then bytes ++ blob_flush chunk num.blob_maxbits
            else bytes
          { num with blob_chunk := chunk, blob_bits := bits, blob := Option.some bytes }
      let r := scanner_nextchar s c
      let r2 :=
        if r.1 = 95 then
          let r3 := scanner_nextchar r.2 r.1
          let s3 :=
            if r3.1 = 95 then error pos "Two '_' characters in a row look ugly" r3.2
            else r3.2
          (r3.1, s3)
        else r
      let r4 := if num.blob.isSome then blob_space_skip f r2.1 r2.2 else r2
      digit_loop f pos r4.1 num r4.2
    else (c, num, s)

/-- The fractional-digit loop (lines 611-622); the real value itself is a
double and not modelled, so only the input consumption is performed. -/
def fraction_loop : Nat → Nat → Int → NumState → ScanState → Int × ScanState
  | 0, _, c, _, s => (c, s)
  | f + 1, pos, c, num, s =>
    if digit_value num c < num.base then
      let r := scanner_nextchar s c
      let r2 :=
        if r.1 = 95 then
          let r3 := scanner_nextchar r.2 r.1
          let s3 :=
            if r3.1 = 95 then error pos "Two _ characters look really ugly" r3.2
            else r3.2
          (r3.1, s3)
        else r
      fraction_loop f pos r2.1 num r2.2
    else (c, s)

/-- The exponent-digit loop (lines 651-657), always in base 10. -/
def exponent_loop : Nat → Int → Nat → ScanState → Int × Nat × ScanState
  | 0, c, e, s => (c, e, s)
  | f + 1, c, e, s =>
    if base_value c < 10 then
      let e := (10 * e + base_value c) % 2 ^ 32
      let r := scanner_nextchar s c
      let r2 := if r.1 = 95 then scanner_nextchar r.2 r.1 else r
      exponent_loop f r2.1 e r2.2
    else (c, e, s)

/-- Exponentiation by squaring on unsigned 64-bit values (lines 680-688). -/
def exp_squaring : Nat → Nat → Nat → Nat → Nat
  | 0, acc, _, _ => acc
  | f + 1, acc, multiplier, exponent =>
    if exponent ≠ 0 then
      let acc := if exponent % 2 = 1 then acc * multiplier % 2 ^ 64 else acc
      exp_squaring f acc (multiplier * multiplier % 2 ^ 64) (exponent / 2)
    else acc

/-- The tail of the number branch after fraction handling: optional second
hash of a based literal, optional exponent, then token selection
(lines 626-704).  A negative exponent only divides the unmodelled real
value; it forces floating_point, which is modelled. -/
def scan_number_exp (fuel : Nat) (c0 : Int) (num0 : NumState) (s0 : ScanState) :
    Token × ScanState :=
  let r1 := if c0 = 35 then scanner_nextchar s0 c0 else (c0, s0)
  let rexp :=
    if r1.1 = 101 ∨ r1.1 = 69 then
      let r2 := scanner_nextchar r1.2 r1.1
      let rsign :=
        if r2.1 = 43 then
          let r3 := scanner_nextchar r2.2 r2.1
          (r3.1, num0, r3.2)
        else if r2.1 = 45 then
          let r3 := scanner_nextchar r2.2 r2.1
          (r3.1, { num0 with floating_point := true }, r3.2)
        else (r2.1, num0, r2.2)
      let re := exponent_loop fuel rsign.1 0 rsign.2.2
      let num := rsign.2.1
      let num :=
        if num.floating_point then num
        else
          { num with natural_value :=
              num.natural_value * exp_squaring 64 1 num.base re.2.1 % 2 ^ 64 }
      (re.1, num, re.2.2)
    else (r1.1, num0, r1.2)
  let s := scanner_ungetchar rexp.2.2 rexp.1
  let s := { s with hadSpaceAfter := isspace rexp.1 }
  if rexp.2.1.floating_point then (Token.tokREAL, { s with scanned := Scanned.real })
  else (Token.tokINTEGER, { s with scanned := Scanned.natural rexp.2.1.natural_value })

/-- The rebasing hash of the number branch (lines 506-545): on a '#' the
accumulated value becomes the base (base64 switches the digit table, bad
bases clamp to 36 with an error, blob bases reset the recorded bytes and
select the bit packing), the '#' is consumed, the value restarts at 0 and
the digits are scanned again; the do-while cannot rebase a second time. -/
def scan_number_based (fuel pos : Nat) (r1 : Int × NumState × ScanState) :
    Int × NumState × ScanState :=
  if r1.1 = 35 then
    let num := r1.2.1
    let b := num.natural_value % 2 ^ 32
    let num := { num with base := b, blob_base := b }
    let ns :=
      if num.base = 64 then ({ num with base64 := true }, r1.2.2)
      else if num.base < 2 ∨ num.base > 36 then
        ({ num with base := 36 },
         error pos ("The base " ++ Nat.repr 36 ++ " is not valid, not in 2..36") r1.2.2)
      else if num.blob.isSome then
        let num := { num with blob := Option.some [], blob_bits := 0, blob_chunk := 0 }
        if num.base = 2 then ({ num with blob_digbits := 1 }, r1.2.2)
        else if num.base = 4 then ({ num with blob_digbits := 2 }, r1.2.2)
        else if num.base = 8 then ({ num with blob_digbits := 3, blob_maxbits := 24 }, r1.2.2)
        else if num.base = 16 then ({ num with blob_digbits := 4 }, r1.2.2)
        else (num, error pos ("Base " ++ Nat.repr num.base ++ " is invalid for a blob") r1.2.2)
      else (num, r1.2.2)
    let rn := scanner_nextchar ns.2 r1.1
    let num := { ns.1 with natural_value := 0 }
    digit_loop fuel pos rn.1 num rn.2
  else r1

/-- The tail of the number branch after the integral part: blob
termination (lines 550-588) or fraction, second hash and exponent
(lines 591-704). -/
def scan_number_tail (fuel pos : Nat) (c : Int) (num : NumState) (s : ScanState) :
    Token × ScanState :=
  match num.blob with
  | Option.some bytes =>
    let r3 := if num.blob_base = 64 ∧ c = 61 then scanner_nextchar s c else (c, s)
    let s := if r3.1 = 36 then scanner_consume r3.2 r3.1 else scanner_ungetchar r3.2 r3.1
    let bytes :=
      if num.blob_bits ≠ 0 then
        bytes ++ blob_flush (blob_pad 32 num.blob_chunk num.blob_bits num.blob_digbits num.blob_maxbits) num.blob_maxbits
      else bytes
    (Token.tokBLOB, { s with scanned := Scanned.blob bytes })
  | Option.none =>
    if c = 46 then
      let rm := scanner_nextchar s c
      if num.base ≤ digit_value num rm.1 then
        let s := scanner_ungetchar rm.2 rm.1
        let s := scanner_ungetchar s c
        let s := { s with hadSpaceAfter := false, scanned := Scanned.natural num.natural_value }
        (Token.tokINTEGER, s)
      else
        let num := { num with floating_point := true }
        let rf := fraction_loop fuel pos rm.1 num rm.2
        scan_number_exp fuel rf.1 num rf.2
    else scan_number_exp fuel c num s

/-- The number branch of scanner_read (lines 418-705): integral digits, an
optional rebasing hash (the do-while runs its body at most twice, and the
second pass never rebases again), then blob termination or fraction and
exponent. -/
def scan_number (pos : Nat) (c0 : Int) (blob0 : Option (List Nat)) (s0 : ScanState) :
    Token × ScanState :=
  let fuel := scan_fuel s0
  let num0 : NumState :=
    { base := 10, blob_base := 16, natural_value := 0, floating_point := false,
      blob_chunk := 0, blob_bits := 0, blob_digbits := 4, blob_maxbits := 8,
      base64 := false, blob := blob0 }
  let r2 := scan_number_based fuel pos (digit_loop fuel pos c0 num0 s0)
  scan_number_tail fuel pos r2.1 r2.2.1 r2.2.2

/-- The name loop of scanner_read (lines 708-737): alphanumerics,
underscores and UTF-8 bytes extend the spelling. -/
def name_loop : Nat → Int → ScanState → Int × ScanState
  | 0, c, s => (c, s)
  | f + 1, c, s =>
    if isalnum c || c == 95 || utf8_is_first c || utf8_is_next c then
      let r := scanner_nextchar s c
      name_loop f r.1 r.2
    else (c, s)

/-- The name branch: consume the name, unget the terminator, and store the
normalized spelling (in discovery mode the syntax block checks are
skipped and the token is NAME). -/
def scan_name (c0 : Int) (s0 : ScanState) : Token × ScanState :=
  let r := name_loop (scan_fuel s0) c0 s0
  let s := scanner_ungetchar r.2 r.1
  let s := { s with hadSpaceAfter := isspace r.1 }
  let s := { s with scanned := Scanned.name (scanner_normalize s.source) }
  (Token.tokNAME, s)

/-- The text/character loop of scanner_read (lines 745-781): the literal
runs to the matching delimiter, a doubled delimiter encodes itself, and
EOF inside the literal is reported and terminates it. -/
def text_loop : Nat → Nat → Int → Int → List Int → ScanState → Token × ScanState
  | 0, _, _, _, _, s => (Token.tokERROR, s)
  | f + 1, pos, eos, c0, text, s0 =>
    let r :=
      if c0 = -1 then
        (eos, { error pos "End of input in the middle of a text" s0 with hadSpaceAfter := false })
      else (c0, s0)
    if r.1 = eos then
      let r2 := scanner_nextchar r.2 r.1
      if r2.1 ≠ eos then
        let s := scanner_ungetchar r2.2 r2.1
        let s := { s with hadSpaceAfter := isspace r2.1 }
        if eos = 34 then (Token.tokTEXT, { s with scanned := Scanned.text text })
        else
          let rc := scanner_character pos text s
          (Token.tokCHARACTER, { rc.2 with scanned := Scanned.character rc.1 })
      else
        let text := text ++ [r2.1]
        let r3 := scanner_nextchar r2.2 r2.1
        text_loop f pos eos r3.1 text r3.2
    else
      let text := text ++ [r.1]
      let r3 := scanner_nextchar r.2 r.1
      text_loop f pos eos r3.1 text r3.2

/-- The text branch entry (lines 740-744). -/
def scan_text (pos : Nat) (c0 : Int) (s0 : ScanState) : Token × ScanState :=
  let r := scanner_nextchar s0 c0
  text_loop (scan_fuel s0 + 4) pos c0 r.1 [] r.2

/-- The operator loop in syntax-discovery mode (lines 809-813): accept any
punctuation run. -/
def punct_loop : Nat → Int → ScanState → Int × ScanState
  | 0, c, s => (c, s)
  | f + 1, c, s =>
    if ispunct c = true ∧ c ≠ 39 ∧ c ≠ 34 ∧ c ≠ -1 then
      let r := scanner_nextchar s c
      punct_loop f r.1 r.2
    else (c, s)

/-- The operator branch in discovery mode (lines 784-822). -/
def scan_symbol (c0 : Int) (s0 : ScanState) : Token × ScanState :=
  let r := punct_loop (scan_fuel s0) c0 s0
  let s := scanner_ungetchar r.2 r.1
  let s := { s with hadSpaceAfter := isspace r.1 }
  let s := { s with scanned := Scanned.name (scanner_normalize s.source) }
  (Token.tokSYMBOL, s)

/-- The part of scanner_read after whitespace skipping (lines 343-822):
decide indentation tokens when checking_indent was set, report end of
input, clear the accumulated whitespace spelling, and dispatch on the
first character of the token. -/
def scanner_read_body (pos : Nat) (c : Int) (s : ScanState) : Token × ScanState :=
  if s.checkingIndent then scanner_indent_token pos c s
  else if ¬ s.reader then (Token.tokEOF, s)
  else
    let s := { s with source := [] }
    let pos := scanner_position s
    if c = 36 then
      let r3 := scanner_nextchar s c
      scan_number pos r3.1 (Option.some []) r3.2
    else if isdigit c then scan_number pos c Option.none s
    else if utf8_isalpha c then scan_name c s
    else if c = 34 ∨ c = 39 then scan_text pos c s
    else scan_symbol c s

/-- scanner_read (lines 282-823): clear the source and scanned value,
return EOF when no reader is left, drain one pending unindent, skip
whitespace (measuring indentation), and hand over to scanner_read_body. -/
def scanner_read (s0 : ScanState) : Token × ScanState :=
  let pos := scanner_position s0
  let s := { s0 with source := [], scanned := Scanned.none }
  if ¬ s.reader then (Token.tokEOF, s)
  else
    let s := { s with hadSpaceBefore := true }
    if 0 < s.indents.length ∧ s.indent < indents_top s.indents then
      (Token.tokUNINDENT, { s with indents := s.indents.dropLast })
    else
      let r := scanner_getchar s
      let s := { r.2 with hadSpaceBefore := false }
      let r2 := skip_spaces (scan_fuel s) r.1 pos s
      scanner_read_body pos r2.1 r2.2

/-- scanner_new followed by scanner_open_stream on the given input: all
flags cleared, empty indent stack, no pending characters, no syntax. -/
def scanner_new (input : List Int) : ScanState :=
  { stream := input, reader := true, pending0 := 0, pending1 := 0,
    position := 0, source := [], scanned := Scanned.none, indents := [],
    indent := 0, column := 0, indentChar := 0,
    checkingIndent := false, settingIndent := false,
    hadSpaceBefore := false, hadSpaceAfter := false, errors := [] }

/-- The tokens returned by n successive scanner_read calls. -/
def scanner_run : Nat → ScanState → List Token
  | 0, _ => []
  | n + 1, s => (scanner_read s).1 :: scanner_run n (scanner_read s).2

/-- The scanner state after n scanner_read calls. -/
def scanner_state : Nat → ScanState → ScanState
  | 0, s => s
  | n + 1, s => scanner_state n (scanner_read s).2

/-- Occurrences of a token in a token list. -/
def count_tok (t : Token) : List Token → Nat
  | [] => 0
  | x :: rest => (if x = t then 1 else 0) + count_tok t rest

/-- Whether a scanner_read call on s evaluates the dedent comparison of
line 367 (column against the top of the indent stack) with an empty indent
stack.  This mirrors scanner_read's control flow up to that comparison:
the comparison is evaluated exactly when checking_indent is set after the
whitespace loop, setting_indent is clear, and the column does not exceed
the indent. -/
def scanner_read_dedent_cmp_on_empty (s0 : ScanState) : Bool :=
  let pos := scanner_position s0
  let s := { s0 with source := [], scanned := Scanned.none }
  if ¬ s.reader then false
  else
    let s := { s with hadSpaceBefore := true }
    if 0 < s.indents.length ∧ s.indent < indents_top s.indents then false
    else
      let r := scanner_getchar s
      let s := { r.2 with hadSpaceBefore := false }
      let r2 := skip_spaces (scan_fuel s) r.1 pos s
      let s := r2.2
      if s.checkingIndent then
        decide (s.settingIndent = false ∧ ¬ s.column > s.indent ∧ s.indents = [])
      else false

/-- Input "  \n  foo\n" (claim C1). -/
def inputC1 : List Int := [32, 32, 10, 32, 32, 102, 111, 111, 10]

/-- Input "a\n  b\n    c\nd" (claims C2 and C3's witness). -/
def inputC2 : List Int := [97, 10, 32, 32, 98, 10, 32, 32, 32, 32, 99, 10, 100]

/-- Input "a\n  b" (claim C3). -/
def inputC3 : List Int := [97, 10, 32, 32, 98]

/-- Input "$16#DEAD_BEEF$" (claim C8). -/
def inputC8 : List Int :=
  [36, 49, 54, 35, 68, 69, 65, 68, 95, 66, 69, 69, 70, 36]

/-- Input "1..3" (claim C9). -/
def inputC9 : List Int := [49, 46, 46, 51]

/-- No two consecutive bytes of the list are underscores. -/
def no_consecutive_underscores : List Int → Bool
  | a :: b :: rest => !((a == 95) && (b == 95)) && no_consecutive_underscores (b :: rest)
  | _ => true

/-- The global state of the error sink (error.c): the current errors
buffer (`errors`, NULL when not collecting) and the messages displayed so
far.  A message is a text node tagged with its srcpos, modelled as a
position/string pair; the display format itself is out of scope. -/
structure ErrorsState where
  errors : Option (List (Nat × String))
  displayed : List (Nat × String)
deriving DecidableEq

/-- errorv (error.c lines 125-136): format the message into a text node
tagged with the position; push it when a buffer is active, display it
immediately otherwise. -/
def errorv (pos : Nat) (msg : String) (st : ErrorsState) : ErrorsState :=
  match st.errors with
  | Option.some buf => { st with errors := Option.some (buf ++ [(pos, msg)]) }
  | Option.none => { st with displayed := st.displayed ++ [(pos, msg)] }

/-- errors_save (error.c lines 200-209): install a fresh empty buffer and
return the previous one. -/
def errors_save (st : ErrorsState) : Option (List (Nat × String)) × ErrorsState :=
  (st.errors, { st with errors := Option.some [] })

/-- errors_commit (error.c lines 212-228): append the current buffer to
the saved one when there is one, otherwise display the current buffer's
messages in order and discard the buffer. -/
def errors_commit (saved : Option (List (Nat × String))) (st : ErrorsState) : ErrorsState :=
  match saved with
  | Option.some prev => { st with errors := Option.some (prev ++ st.errors.getD []) }
  | Option.none =>
    { st with displayed := st.displayed ++ st.errors.getD [], errors := Option.none }

/-- errors_clear (error.c lines 231-238): discard the current buffer and
restore the saved one. -/
def errors_clear (saved : Option (List (Nat × String))) (st : ErrorsState) : ErrorsState :=
  { st with errors := saved }

end XL

namespace XL

/-!  Theorems.  -/

/-- C1: the claim states that scanning "  \n  foo\n" yields NEWLINE,
INDENT, NAME("foo"), NEWLINE, UNINDENT, EOF.  It does not: the leading
spaces are skipped without counting (checking_indent starts false), the
newline followed by a deeper column yields a single INDENT with no
preceding NEWLINE, and the final newline followed by end of input yields a
single UNINDENT with no preceding NEWLINE. -/
theorem c1_counterexample :
    scanner_run 6 (scanner_new inputC1) ≠
      [Token.tokNEWLINE, Token.tokINDENT, Token.tokNAME, Token.tokNEWLINE,
       Token.tokUNINDENT, Token.tokEOF] := by decide

/-- C1 (amended): scanning "  \n  foo\n" yields INDENT, NAME("foo"),
UNINDENT, EOF (and EOF on every further call); the NAME's scanned value is
the normalized spelling "foo". -/
theorem c1_amended :
    scanner_run 6 (scanner_new inputC1) =
      [Token.tokINDENT, Token.tokNAME, Token.tokUNINDENT, Token.tokEOF,
       Token.tokEOF, Token.tokEOF] ∧
    (scanner_state 2 (scanner_new inputC1)).scanned = Scanned.name [102, 111, 111] := by
  decide

/-- C2: the claim states that after popping, a remaining top that still
exceeds the column is the error case.  It is the opposite: scanning
"a\n  b\n    c\nd", the sixth read dedents from the stack [2, 4] to
column 0; after popping, the new top 2 exceeds the column 0, yet the
scanner returns UNINDENT (the remaining levels drain on later calls) and
reports no error. -/
theorem c2_counterexample :
    (scanner_state 5 (scanner_new inputC2)).indents = [2, 4] ∧
    (scanner_state 5 (scanner_new inputC2)).settingIndent = false ∧
    (scanner_read (scanner_state 5 (scanner_new inputC2))).1 = Token.tokUNINDENT ∧
    (scanner_read (scanner_state 5 (scanner_new inputC2))).2.indents = [2] ∧
    (scanner_read (scanner_state 5 (scanner_new inputC2))).2.indent = 0 ∧
    (scanner_read (scanner_state 5 (scanner_new inputC2))).2.errors = [] := by decide

/-- C2 (amended): when the indent decision runs with setting_indent false,
a column not exceeding the indent, and a column below the top of the
indent stack, the scanner pops one level and sets indent to the column;
it reports "Unindenting to the right of previous indentation" and returns
ERROR exactly when the stack is still non-empty and its new top is
strictly below the column; otherwise it returns UNINDENT. -/
theorem c2_amended (pos : Nat) (c : Int) (s : ScanState)
    (h1 : s.settingIndent = false) (h2 : ¬ s.column > s.indent)
    (h3 : s.column < indents_top s.indents) :
    (scanner_indent_token pos c s).2.indents = s.indents.dropLast ∧
    (scanner_indent_token pos c s).2.indent = s.column ∧
    (if s.indents.dropLast.length ≠ 0 ∧ indents_top s.indents.dropLast < s.column then
      (scanner_indent_token pos c s).1 = Token.tokERROR ∧
      (scanner_indent_token pos c s).2.errors =
        s.errors ++ [(pos, "Unindenting to the right of previous indentation")]
    else
      (scanner_indent_token pos c s).1 = Token.tokUNINDENT ∧
      (scanner_indent_token pos c s).2.errors = s.errors) := by
  have hset : (s.settingIndent = true) = False := by simp [h1]
  simp only [scanner_indent_token, scanner_ungetchar, error, hset, if_false,
    if_neg h2, if_pos h3]
  refine ⟨by split <;> rfl, by split <;> rfl, ?_⟩
  by_cases h5 : s.indents.dropLast.length ≠ 0 ∧ indents_top s.indents.dropLast < s.column
  · rw [if_pos h5, if_pos h5]
    exact ⟨rfl, rfl⟩
  · rw [if_neg h5, if_neg h5]
    exact ⟨rfl, rfl⟩

/-- C2 (witness): with the stack [2, 4], indent 4 and column 0, the pop
leaves [2] with top 2 above the column and the result is UNINDENT. -/
theorem c2_amended_witness :
    (scanner_indent_token 0 100
        { scanner_new [] with indents := [2, 4], indent := 4, column := 0 }).2.indents = [2] ∧
    (scanner_indent_token 0 100
        { scanner_new [] with indents := [2, 4], indent := 4, column := 0 }).2.indent = 0 ∧
    (if ([2, 4] : List Nat).dropLast.length ≠ 0 ∧
        indents_top ([2, 4] : List Nat).dropLast < 0 then
      (scanner_indent_token 0 100
          { scanner_new [] with indents := [2, 4], indent := 4, column := 0 }).1 =
        Token.tokERROR ∧
      (scanner_indent_token 0 100
          { scanner_new [] with indents := [2, 4], indent := 4, column := 0 }).2.errors =
        [] ++ [(0, "Unindenting to the right of previous indentation")]
    else
      (scanner_indent_token 0 100
          { scanner_new [] with indents := [2, 4], indent := 4, column := 0 }).1 =
        Token.tokUNINDENT ∧
      (scanner_indent_token 0 100
          { scanner_new [] with indents := [2, 4], indent := 4, column := 0 }).2.errors =
        []) :=
  c2_amended 0 100 { scanner_new [] with indents := [2, 4], indent := 4, column := 0 }
    (by decide) (by decide) (by decide)

/-- C3: the claim states every INDENT is matched by an UNINDENT before the
first EOF.  It is not: on "a\n  b" (no trailing newline) the reader is
exhausted while scanning the name "b", and scanner_read returns EOF before
it reaches the unindent drain, so the INDENT of the second read is never
matched. -/
theorem c3_counterexample :
    scanner_run 6 (scanner_new inputC3) =
      [Token.tokNAME, Token.tokINDENT, Token.tokNAME, Token.tokEOF,
       Token.tokEOF, Token.tokEOF] ∧
    (scanner_state 3 (scanner_new inputC3)).reader = false ∧
    (scanner_state 4 (scanner_new inputC3)).reader = false ∧
    count_tok Token.tokINDENT (scanner_run 6 (scanner_new inputC3)) = 1 ∧
    count_tok Token.tokUNINDENT (scanner_run 6 (scanner_new inputC3)) = 0 ∧
    count_tok Token.tokERROR (scanner_run 6 (scanner_new inputC3)) = 0 := by decide

/-- C4: the claim states the dedent comparison never reads the top of an
empty indent stack.  It does: on input "\nx" the very first scanner_read
reaches the comparison of line 367 with an empty stack (the C indents_top
then reads data[length-1] out of bounds; in this model it reads 0, making
the read return NEWLINE). -/
theorem c4_dedent_on_empty :
    scanner_read_dedent_cmp_on_empty (scanner_new [10, 120]) = true ∧
    (scanner_read (scanner_new [10, 120])).1 = Token.tokNEWLINE := by decide

/-- C5: the claim (and the function's own comment) states the normalized
name lowercases every letter and strips underscores.  The normalized-input
check recomputes its flag at every character, so only the last character
decides: "Ab" is reported normalized and returned unchanged instead of
becoming "ab", and consequently "Ab" and "ab" do not normalize to equal
byte sequences. -/
theorem c5_normalize_bug :
    name_is_valid [65, 98] = true ∧
    scanner_normalize [65, 98] = [65, 98] ∧
    name_normalize_spec [65, 98] = [97, 98] ∧
    scanner_normalize [65, 98] ≠ name_normalize_spec [65, 98] ∧
    scanner_normalize [65, 98] ≠ scanner_normalize [97, 98] := by decide

/-- C6: the claim states a valid alphabetic name cannot end with an
underscore; name_is_valid has no such check and accepts "a_". -/
theorem c6_counterexample :
    name_is_valid [97, 95] = true ∧ ([97, 95] : List Int).getLast? = some 95 := by decide

/-- The invariant of the alphabetic-name loop: success means every byte is
alphanumeric or underscore, no two consecutive bytes are underscores, and
when the incoming flag is set the first byte is not an underscore. -/
theorem name_valid_alpha_sound (l : List Int) : ∀ (had : Bool),
    name_valid_alpha had l = true →
    l.all (fun b => isalnum b || b == 95) = true ∧
    no_consecutive_underscores l = true ∧
    (had = true → l.head? ≠ some 95) := by
  induction l with
  | nil => intro had _; simp [no_consecutive_underscores]
  | cons c rest ih =>
    intro had h
    rw [name_valid_alpha] at h
    by_cases hc : ((c == 95) && had) = true
    · rw [if_pos hc] at h
      exact absurd h (by simp)
    · rw [if_neg hc] at h
      by_cases hd : (!(c == 95) && !(isalnum c)) = true
      · rw [if_pos hd] at h
        exact absurd h (by simp)
      · rw [if_neg hd] at h
        obtain ⟨hall, hcons, hhead⟩ := ih (c == 95) h
        have hor : (c == 95) = true ∨ isalnum c = true := by
          rcases Bool.eq_false_or_eq_true (c == 95) with h1 | h1
          · exact Or.inl h1
          · rcases Bool.eq_false_or_eq_true (isalnum c) with h2 | h2
            · exact Or.inr h2
            · exact absurd (by rw [h1, h2]; rfl) hd
        refine ⟨?_, ?_, ?_⟩
        · rw [List.all_cons, hall, Bool.and_true]
          rcases hor with h1 | h1 <;> simp [h1]
        · cases rest with
          | nil => simp [no_consecutive_underscores]
          | cons b rest2 =>
            rw [no_consecutive_underscores, hcons, Bool.and_true]
            rcases Bool.eq_false_or_eq_true (c == 95) with h1 | h1
            · have hb : b ≠ 95 := by
                intro hb
                exact hhead h1 (by rw [List.head?_cons, hb])
              simp [h1, hb]
            · simp [h1]
        · intro hhad
          simp only [List.head?_cons, ne_eq, Option.some.injEq]
          intro hceq
          exact hc (by simp [hceq, hhad])

/-- C6 (amended): for every byte sequence whose first byte is alphabetic,
name_is_valid returns true only if each byte is alphanumeric or an
underscore and no two consecutive bytes are underscores (a trailing
underscore is accepted). -/
theorem c6_amended (c : Int) (rest : List Int) (halpha : isalpha c = true)
    (hvalid : name_is_valid (c :: rest) = true) :
    (c :: rest).all (fun b => isalnum b || b == 95) = true ∧
    no_consecutive_underscores (c :: rest) = true := by
  have hpunct : ispunct c = false := by
    simp only [isalpha, ispunct, decide_eq_true_eq, decide_eq_false_iff_not] at halpha ⊢
    omega
  rw [name_is_valid, if_neg (by simp [hpunct]), if_pos halpha] at hvalid
  exact ⟨(name_valid_alpha_sound _ true hvalid).1, (name_valid_alpha_sound _ true hvalid).2.1⟩

/-- C6 (witness): "a_b" is valid, all its bytes are alphanumeric or
underscore, and it has no consecutive underscores. -/
theorem c6_amended_witness :
    ([97, 95, 98] : List Int).all (fun b => isalnum b || b == 95) = true ∧
    no_consecutive_underscores [97, 95, 98] = true :=
  c6_amended 97 [95, 98] (by decide) (by decide)

/-- A fold whose step ignores the accumulator stays true when every
element passes the test and the fold starts true. -/
theorem foldl_replace_all (g : Int → Bool) (l : List Int) (h : ∀ c ∈ l, g c = true) :
    ∀ init : Bool, init = true → l.foldl (fun _ c => g c) init = true := by
  induction l with
  | nil => intro init hinit; simpa using hinit
  | cons a t ih =>
    intro init _
    rw [List.foldl_cons]
    exact ih (fun c hc => h c (List.mem_cons_of_mem a hc)) (g a) (h a (List.mem_cons_self a t))

/-- tolower is idempotent. -/
theorem tolower_tolower (c : Int) : tolower (tolower c) = tolower c := by
  unfold tolower
  by_cases h : 65 ≤ c ∧ c ≤ 90
  · simp only [if_pos h]
    rw [if_neg (by omega)]
  · simp only [if_neg h]

/-- tolower never produces an underscore from a non-underscore. -/
theorem tolower_ne_95 (c : Int) (h : c ≠ 95) : tolower c ≠ 95 := by
  unfold tolower
  by_cases h1 : 65 ≤ c ∧ c ≤ 90
  · rw [if_pos h1]; omega
  · rw [if_neg h1]; exact h

/-- The output of the slow path of scanner_normalize always passes the
normalized-input check. -/
theorem norm_flag_map_filter (x : List Int) :
    norm_flag ((x.filter (fun c => c != 95)).map tolower) = true := by
  rw [norm_flag]
  refine foldl_replace_all _ _ ?_ true rfl
  intro c hc
  obtain ⟨z, hz, rfl⟩ := List.mem_map.mp hc
  have hz95 : z ≠ 95 := by
    have := (List.mem_filter.mp hz).2
    simpa using this
  simp [tolower_ne_95 z hz95, tolower_tolower]

/-- scanner_normalize is idempotent on every byte sequence: the fast path
returns its input unchanged, and the slow path's output always takes the
fast path. -/
theorem scanner_normalize_idem (x : List Int) :
    scanner_normalize (scanner_normalize x) = scanner_normalize x := by
  by_cases h : norm_flag x = true
  · have hx : scanner_normalize x = x := by simp [scanner_normalize, h]
    rw [hx, hx]
  · have hx : scanner_normalize x = (x.filter (fun c => c != 95)).map tolower := by
      simp [scanner_normalize, h]
    rw [hx]
    simp [scanner_normalize, norm_flag_map_filter x]

/-- C7: normalization is idempotent on every valid name spelling. -/
theorem c7_normalize_idempotent (x : List Int) (_h : name_is_valid x = true) :
    scanner_normalize (scanner_normalize x) = scanner_normalize x :=
  scanner_normalize_idem x

/-- C7 (witness): idempotence at the valid spelling "a_B". -/
theorem c7_witness :
    name_is_valid [97, 95, 66] = true ∧
    scanner_normalize (scanner_normalize [97, 95, 66]) = scanner_normalize [97, 95, 66] :=
  ⟨by decide, c7_normalize_idempotent [97, 95, 66] (by decide)⟩

/-- C8: the claim (and spec scenario 4) states "$16#DEAD_BEEF$" scans to
the four bytes DE AD BE EF.  Because blob_bits is never reset when a chunk
is flushed, every digit after the first flush flushes again and the final
flush re-emits the last byte, producing DE EA AD DB BE EE EF EF. -/
theorem c8_blob_bug :
    (scanner_read (scanner_new inputC8)).1 = Token.tokBLOB ∧
    (scanner_read (scanner_new inputC8)).2.scanned =
      Scanned.blob [222, 234, 173, 219, 190, 238, 239, 239] ∧
    (scanner_read (scanner_new inputC8)).2.scanned ≠
      Scanned.blob [222, 173, 190, 239] := by decide

/-- C9: scanning "1..3" yields INTEGER(1), SYMBOL(".."), INTEGER(3); after
the first read both pushed-back characters are pending; and in general two
characters pushed back in the order the number branch pushes them (the
character after the dot first, then the dot) are re-read in their original
input order. -/
theorem c9_number_dot_dot :
    (scanner_run 3 (scanner_new inputC9) =
        [Token.tokINTEGER, Token.tokSYMBOL, Token.tokINTEGER] ∧
      (scanner_state 1 (scanner_new inputC9)).scanned = Scanned.natural 1 ∧
      (scanner_state 1 (scanner_new inputC9)).pending0 = 46 ∧
      (scanner_state 1 (scanner_new inputC9)).pending1 = 46 ∧
      (scanner_state 2 (scanner_new inputC9)).scanned = Scanned.name [46, 46] ∧
      (scanner_state 2 (scanner_new inputC9)).source = [46, 46] ∧
      (scanner_state 3 (scanner_new inputC9)).scanned = Scanned.natural 3) ∧
    (∀ (s : ScanState) (m c : Int), m ≠ 0 → c ≠ 0 →
      (scanner_getchar (scanner_ungetchar (scanner_ungetchar
          { s with pending0 := 0, pending1 := 0 } m) c)).1 = c ∧
      (scanner_getchar (scanner_getchar (scanner_ungetchar (scanner_ungetchar
          { s with pending0 := 0, pending1 := 0 } m) c)).2).1 = m) := by
  constructor
  · decide
  · intro s m c hm hc
    simp [scanner_getchar, scanner_ungetchar, hm, hc]

/-- C9 (witness): pushing back 'x' then '.' re-reads '.' then 'x'. -/
theorem c9_witness :
    (scanner_getchar (scanner_ungetchar (scanner_ungetchar
        { scanner_new [] with pending0 := 0, pending1 := 0 } 120) 46)).1 = 46 ∧
    (scanner_getchar (scanner_getchar (scanner_ungetchar (scanner_ungetchar
        { scanner_new [] with pending0 := 0, pending1 := 0 } 120) 46)).2).1 = 120 :=
  c9_number_dot_dot.2 (scanner_new []) 120 46 (by decide) (by decide)

/-- C10: error routes a position-tagged message to the active buffer when
one is installed and displays it immediately otherwise, and errors_commit
appends the current buffer to the saved one when there is one and displays
and discards it otherwise. -/
theorem c10_error_sink :
    (∀ (pos : Nat) (msg : String) (st : ErrorsState) (buf : List (Nat × String)),
      st.errors = Option.some buf →
      errorv pos msg st = { st with errors := Option.some (buf ++ [(pos, msg)]) }) ∧
    (∀ (pos : Nat) (msg : String) (st : ErrorsState),
      st.errors = Option.none →
      errorv pos msg st = { st with displayed := st.displayed ++ [(pos, msg)] }) ∧
    (∀ (st : ErrorsState) (prev buf : List (Nat × String)),
      st.errors = Option.some buf →
      errors_commit (Option.some prev) st = { st with errors := Option.some (prev ++ buf) }) ∧
    (∀ (st : ErrorsState) (buf : List (Nat × String)),
      st.errors = Option.some buf →
      errors_commit Option.none st =
        { st with displayed := st.displayed ++ buf, errors := Option.none }) := by
  refine ⟨?_, ?_, ?_, ?_⟩
  · intro pos msg st buf h
    simp [errorv, h]
  · intro pos msg st h
    simp [errorv, h]
  · intro st prev buf h
    simp [errors_commit, h]
  · intro st buf h
    simp [errors_commit, h]

/-!  State-preservation lemmas: no scanner helper outside the indentation
decision and the unindent drain touches the indent stack or the
setting_indent flag. -/

theorem scanner_getchar_pres (s : ScanState) :
    (scanner_getchar s).2.indents = s.indents ∧
    (scanner_getchar s).2.settingIndent = s.settingIndent := by
  unfold scanner_getchar
  split
  · exact ⟨rfl, rfl⟩
  · split
    · exact ⟨rfl, rfl⟩
    · split <;> exact ⟨rfl, rfl⟩

theorem scanner_getchar_indents (s : ScanState) :
    (scanner_getchar s).2.indents = s.indents := (scanner_getchar_pres s).1

theorem scanner_getchar_setting (s : ScanState) :
    (scanner_getchar s).2.settingIndent = s.settingIndent := (scanner_getchar_pres s).2

theorem scanner_consume_pres (s : ScanState) (c : Int) :
    (scanner_consume s c).indents = s.indents ∧
    (scanner_consume s c).settingIndent = s.settingIndent := by
  unfold scanner_consume
  split <;> exact ⟨rfl, rfl⟩

theorem scanner_nextchar_indents (s : ScanState) (c : Int) :
    (scanner_nextchar s c).2.indents = s.indents := by
  unfold scanner_nextchar
  rw [scanner_getchar_indents, (scanner_consume_pres s c).1]

theorem scanner_nextchar_setting (s : ScanState) (c : Int) :
    (scanner_nextchar s c).2.settingIndent = s.settingIndent := by
  unfold scanner_nextchar
  rw [scanner_getchar_setting, (scanner_consume_pres s c).2]

theorem skip_spaces_pres (f : Nat) : ∀ (c : Int) (pos : Nat) (s : ScanState),
    (skip_spaces f c pos s).2.indents = s.indents ∧
    (skip_spaces f c pos s).2.settingIndent = s.settingIndent := by
  induction f with
  | zero => intro c pos s; exact ⟨rfl, rfl⟩
  | succ n ih =>
    intro c pos s
    rw [skip_spaces]
    split
    · constructor
      · rw [(ih _ _ _).1, scanner_getchar_indents, (scanner_consume_pres _ _).1]
        simp only [error]
        repeat' split
        all_goals rfl
      · rw [(ih _ _ _).2, scanner_getchar_setting, (scanner_consume_pres _ _).2]
        simp only [error]
        repeat' split
        all_goals rfl
    · exact ⟨rfl, rfl⟩

theorem skip_spaces_indents (f : Nat) (c : Int) (pos : Nat) (s : ScanState) :
    (skip_spaces f c pos s).2.indents = s.indents := (skip_spaces_pres f c pos s).1

theorem skip_spaces_setting (f : Nat) (c : Int) (pos : Nat) (s : ScanState) :
    (skip_spaces f c pos s).2.settingIndent = s.settingIndent := (skip_spaces_pres f c pos s).2

theorem blob_space_skip_pres (f : Nat) : ∀ (c : Int) (s : ScanState),
    (blob_space_skip f c s).2.indents = s.indents ∧
    (blob_space_skip f c s).2.settingIndent = s.settingIndent := by
  induction f with
  | zero => intro c s; exact ⟨rfl, rfl⟩
  | succ n ih =>
    intro c s
    rw [blob_space_skip]
    split
    · exact ⟨by rw [(ih _ _).1, scanner_nextchar_indents],
        by rw [(ih _ _).2, scanner_nextchar_setting]⟩
    · exact ⟨rfl, rfl⟩

theorem name_loop_pres (f : Nat) : ∀ (c : Int) (s : ScanState),
    (name_loop f c s).2.indents = s.indents ∧
    (name_loop f c s).2.settingIndent = s.settingIndent := by
  induction f with
  | zero => intro c s; exact ⟨rfl, rfl⟩
  | succ n ih =>
    intro c s
    rw [name_loop]
    split
    · exact ⟨by rw [(ih _ _).1, scanner_nextchar_indents],
        by rw [(ih _ _).2, scanner_nextchar_setting]⟩
    · exact ⟨rfl, rfl⟩

theorem punct_loop_pres (f : Nat) : ∀ (c : Int) (s : ScanState),
    (punct_loop f c s).2.indents = s.indents ∧
    (punct_loop f c s).2.settingIndent = s.settingIndent := by
  induction f with
  | zero => intro c s; exact ⟨rfl, rfl⟩
  | succ n ih =>
    intro c s
    rw [punct_loop]
    split
    · exact ⟨by rw [(ih _ _).1, scanner_nextchar_indents],
        by rw [(ih _ _).2, scanner_nextchar_setting]⟩
    · exact ⟨rfl, rfl⟩

theorem exponent_loop_pres (f : Nat) : ∀ (c : Int) (e : Nat) (s : ScanState),
    (exponent_loop f c e s).2.2.indents = s.indents ∧
    (exponent_loop f c e s).2.2.settingIndent = s.settingIndent := by
  induction f with
  | zero => intro c e s; exact ⟨rfl, rfl⟩
  | succ n ih =>
    intro c e s
    rw [exponent_loop]
    split
    · constructor
      · rw [(ih _ _ _).1]
        split
        · rw [scanner_nextchar_indents, scanner_nextchar_indents]
        · rw [scanner_nextchar_indents]
      · rw [(ih _ _ _).2]
        split
        · rw [scanner_nextchar_setting, scanner_nextchar_setting]
        · rw [scanner_nextchar_setting]
    · exact ⟨rfl, rfl⟩

theorem fraction_loop_pres (f : Nat) : ∀ (pos : Nat) (c : Int) (num : NumState) (s : ScanState),
    (fraction_loop f pos c num s).2.indents = s.indents ∧
    (fraction_loop f pos c num s).2.settingIndent = s.settingIndent := by
  induction f with
  | zero => intro pos c num s; exact ⟨rfl, rfl⟩
  | succ n ih =>
    intro pos c num s
    rw [fraction_loop]
    split
    · constructor
      · rw [(ih _ _ _ _).1]
        split
        · simp only [error]
          split <;> rw [scanner_nextchar_indents, scanner_nextchar_indents]
        · rw [scanner_nextchar_indents]
      · rw [(ih _ _ _ _).2]
        split
        · simp only [error]
          split <;> rw [scanner_nextchar_setting, scanner_nextchar_setting]
        · rw [scanner_nextchar_setting]
    · exact ⟨rfl, rfl⟩

theorem digit_loop_pres (f : Nat) : ∀ (pos : Nat) (c : Int) (num : NumState) (s : ScanState),
    (digit_loop f pos c num s).2.2.indents = s.indents ∧
    (digit_loop f pos c num s).2.2.settingIndent = s.settingIndent := by
  induction f with
  | zero => intro pos c num s; exact ⟨rfl, rfl⟩
  | succ n ih =>
    intro pos c num s
    rw [digit_loop]
    split
    · constructor
      · rw [(ih _ _ _ _).1]
        split
        · rw [(blob_space_skip_pres _ _ _).1]
          split
          · simp only [error]
            split <;> rw [scanner_nextchar_indents, scanner_nextchar_indents]
          · rw [scanner_nextchar_indents]
        · split
          · simp only [error]
            split <;> rw [scanner_nextchar_indents, scanner_nextchar_indents]
          · rw [scanner_nextchar_indents]
      · rw [(ih _ _ _ _).2]
        split
        · rw [(blob_space_skip_pres _ _ _).2]
          split
          · simp only [error]
            split <;> rw [scanner_nextchar_setting, scanner_nextchar_setting]
          · rw [scanner_nextchar_setting]
        · split
          · simp only [error]
            split <;> rw [scanner_nextchar_setting, scanner_nextchar_setting]
          · rw [scanner_nextchar_setting]
    · exact ⟨rfl, rfl⟩

theorem scanner_character_pres (pos : Nat) (text : List Int) (s : ScanState) :
    (scanner_character pos text s).2.indents = s.indents ∧
    (scanner_character pos text s).2.settingIndent = s.settingIndent := by
  unfold scanner_character error
  split <;> exact ⟨rfl, rfl⟩

theorem scanner_character_indents (pos : Nat) (text : List Int) (s : ScanState) :
    (scanner_character pos text s).2.indents = s.indents := (scanner_character_pres pos text s).1

theorem scanner_character_setting (pos : Nat) (text : List Int) (s : ScanState) :
    (scanner_character pos text s).2.settingIndent = s.settingIndent :=
  (scanner_character_pres pos text s).2

theorem text_loop_pres (f : Nat) : ∀ (pos : Nat) (eos c : Int) (text : List Int) (s : ScanState),
    (text_loop f pos eos c text s).2.indents = s.indents ∧
    (text_loop f pos eos c text s).2.settingIndent = s.settingIndent ∧
    (text_loop f pos eos c text s).1 ≠ Token.tokINDENT ∧
    (text_loop f pos eos c text s).1 ≠ Token.tokUNINDENT := by
  induction f with
  | zero =>
    intro pos eos c text s
    rw [text_loop]
    exact ⟨rfl, rfl, fun h => Token.noConfusion h, fun h => Token.noConfusion h⟩
  | succ n ih =>
    intro pos eos c text s
    have ih1 : ∀ (c : Int) (text : List Int) (s : ScanState),
        (text_loop n pos eos c text s).2.indents = s.indents :=
      fun a b c => (ih pos eos a b c).1
    have ih2 : ∀ (c : Int) (text : List Int) (s : ScanState),
        (text_loop n pos eos c text s).2.settingIndent = s.settingIndent :=
      fun a b c => (ih pos eos a b c).2.1
    have ih3 : ∀ (c : Int) (text : List Int) (s : ScanState),
        (text_loop n pos eos c text s).1 ≠ Token.tokINDENT :=
      fun a b c => (ih pos eos a b c).2.2.1
    have ih4 : ∀ (c : Int) (text : List Int) (s : ScanState),
        (text_loop n pos eos c text s).1 ≠ Token.tokUNINDENT :=
      fun a b c => (ih pos eos a b c).2.2.2
    rw [text_loop]
    refine ⟨?_, ?_, ?_, ?_⟩ <;>
      · repeat' split
        all_goals try simp_all [scanner_ungetchar, error, scanner_nextchar_indents,
          scanner_nextchar_setting, scanner_character_indents, scanner_character_setting]
        all_goals repeat' split
        all_goals simp_all [scanner_ungetchar, error, scanner_nextchar_indents,
          scanner_nextchar_setting, scanner_character_indents, scanner_character_setting]

theorem blob_space_skip_indents (f : Nat) (c : Int) (s : ScanState) :
    (blob_space_skip f c s).2.indents = s.indents := (blob_space_skip_pres f c s).1

theorem blob_space_skip_setting (f : Nat) (c : Int) (s : ScanState) :
    (blob_space_skip f c s).2.settingIndent = s.settingIndent := (blob_space_skip_pres f c s).2

theorem name_loop_indents (f : Nat) (c : Int) (s : ScanState) :
    (name_loop f c s).2.indents = s.indents := (name_loop_pres f c s).1

theorem name_loop_setting (f : Nat) (c : Int) (s : ScanState) :
    (name_loop f c s).2.settingIndent = s.settingIndent := (name_loop_pres f c s).2

theorem punct_loop_indents (f : Nat) (c : Int) (s : ScanState) :
    (punct_loop f c s).2.indents = s.indents := (punct_loop_pres f c s).1

theorem punct_loop_setting (f : Nat) (c : Int) (s : ScanState) :
    (punct_loop f c s).2.settingIndent = s.settingIndent := (punct_loop_pres f c s).2

theorem exponent_loop_indents (f : Nat) (c : Int) (e : Nat) (s : ScanState) :
    (exponent_loop f c e s).2.2.indents = s.indents := (exponent_loop_pres f c e s).1

theorem exponent_loop_setting (f : Nat) (c : Int) (e : Nat) (s : ScanState) :
    (exponent_loop f c e s).2.2.settingIndent = s.settingIndent := (exponent_loop_pres f c e s).2

theorem fraction_loop_indents (f pos : Nat) (c : Int) (num : NumState) (s : ScanState) :
    (fraction_loop f pos c num s).2.indents = s.indents := (fraction_loop_pres f pos c num s).1

theorem fraction_loop_setting (f pos : Nat) (c : Int) (num : NumState) (s : ScanState) :
    (fraction_loop f pos c num s).2.settingIndent = s.settingIndent :=
  (fraction_loop_pres f pos c num s).2

theorem digit_loop_indents (f pos : Nat) (c : Int) (num : NumState) (s : ScanState) :
    (digit_loop f pos c num s).2.2.indents = s.indents := (digit_loop_pres f pos c num s).1

theorem digit_loop_setting (f pos : Nat) (c : Int) (num : NumState) (s : ScanState) :
    (digit_loop f pos c num s).2.2.settingIndent = s.settingIndent :=
  (digit_loop_pres f pos c num s).2

theorem scanner_consume_indents (s : ScanState) (c : Int) :
    (scanner_consume s c).indents = s.indents := (scanner_consume_pres s c).1

theorem scanner_consume_setting (s : ScanState) (c : Int) :
    (scanner_consume s c).settingIndent = s.settingIndent := (scanner_consume_pres s c).2

theorem text_loop_indents (f pos : Nat) (eos c : Int) (text : List Int) (s : ScanState) :
    (text_loop f pos eos c text s).2.indents = s.indents := (text_loop_pres f pos eos c text s).1

theorem text_loop_setting (f pos : Nat) (eos c : Int) (text : List Int) (s : ScanState) :
    (text_loop f pos eos c text s).2.settingIndent = s.settingIndent :=
  (text_loop_pres f pos eos c text s).2.1

set_option maxHeartbeats 1000000 in
theorem scan_number_exp_pres (fuel : Nat) (c0 : Int) (num0 : NumState) (s0 : ScanState) :
    (scan_number_exp fuel c0 num0 s0).2.indents = s0.indents ∧
    (scan_number_exp fuel c0 num0 s0).2.settingIndent = s0.settingIndent ∧
    (scan_number_exp fuel c0 num0 s0).1 ≠ Token.tokINDENT ∧
    (scan_number_exp fuel c0 num0 s0).1 ≠ Token.tokUNINDENT := by
  unfold scan_number_exp
  refine ⟨?_, ?_, ?_, ?_⟩ <;>
    · dsimp only
      repeat' split
      all_goals simp [scanner_ungetchar, scanner_nextchar_indents,
        scanner_nextchar_setting, exponent_loop_indents, exponent_loop_setting]

theorem scan_number_exp_indents (fuel : Nat) (c0 : Int) (num0 : NumState) (s0 : ScanState) :
    (scan_number_exp fuel c0 num0 s0).2.indents = s0.indents :=
  (scan_number_exp_pres fuel c0 num0 s0).1

theorem scan_number_exp_setting (fuel : Nat) (c0 : Int) (num0 : NumState) (s0 : ScanState) :
    (scan_number_exp fuel c0 num0 s0).2.settingIndent = s0.settingIndent :=
  (scan_number_exp_pres fuel c0 num0 s0).2.1

theorem scan_number_based_pres (fuel pos : Nat) (r1 : Int × NumState × ScanState) :
    (scan_number_based fuel pos r1).2.2.indents = r1.2.2.indents ∧
    (scan_number_based fuel pos r1).2.2.settingIndent = r1.2.2.settingIndent := by
  unfold scan_number_based
  refine ⟨?_, ?_⟩ <;>
    · dsimp only
      repeat' split
      all_goals simp_all [error, scanner_nextchar_indents, scanner_nextchar_setting,
        digit_loop_indents, digit_loop_setting]

theorem scan_number_tail_pres (fuel pos : Nat) (c : Int) (num : NumState) (s : ScanState) :
    (scan_number_tail fuel pos c num s).2.indents = s.indents ∧
    (scan_number_tail fuel pos c num s).2.settingIndent = s.settingIndent ∧
    (scan_number_tail fuel pos c num s).1 ≠ Token.tokINDENT ∧
    (scan_number_tail fuel pos c num s).1 ≠ Token.tokUNINDENT := by
  unfold scan_number_tail
  have hexp := fun (a : Nat) (b : Int) (d : NumState) (e : ScanState) =>
    (scan_number_exp_pres a b d e).2.2
  refine ⟨?_, ?_, ?_, ?_⟩ <;>
    · dsimp only
      repeat' split
      all_goals simp_all [scanner_ungetchar, scanner_consume_indents,
        scanner_consume_setting, scanner_nextchar_indents, scanner_nextchar_setting,
        fraction_loop_indents, fraction_loop_setting, scan_number_exp_indents,
        scan_number_exp_setting]

theorem scan_number_pres (pos : Nat) (c0 : Int) (blob0 : Option (List Nat)) (s0 : ScanState) :
    (scan_number pos c0 blob0 s0).2.indents = s0.indents ∧
    (scan_number pos c0 blob0 s0).2.settingIndent = s0.settingIndent ∧
    (scan_number pos c0 blob0 s0).1 ≠ Token.tokINDENT ∧
    (scan_number pos c0 blob0 s0).1 ≠ Token.tokUNINDENT := by
  unfold scan_number
  refine ⟨?_, ?_, (scan_number_tail_pres _ _ _ _ _).2.2.1,
    (scan_number_tail_pres _ _ _ _ _).2.2.2⟩
  · rw [(scan_number_tail_pres _ _ _ _ _).1, (scan_number_based_pres _ _ _).1,
      digit_loop_indents]
  · rw [(scan_number_tail_pres _ _ _ _ _).2.1, (scan_number_based_pres _ _ _).2,
      digit_loop_setting]

theorem scan_name_pres (c0 : Int) (s0 : ScanState) :
    (scan_name c0 s0).2.indents = s0.indents ∧
    (scan_name c0 s0).2.settingIndent = s0.settingIndent ∧
    (scan_name c0 s0).1 = Token.tokNAME := by
  unfold scan_name
  refine ⟨?_, ?_, rfl⟩ <;>
    simp [scanner_ungetchar, name_loop_indents, name_loop_setting]

theorem scan_symbol_pres (c0 : Int) (s0 : ScanState) :
    (scan_symbol c0 s0).2.indents = s0.indents ∧
    (scan_symbol c0 s0).2.settingIndent = s0.settingIndent ∧
    (scan_symbol c0 s0).1 = Token.tokSYMBOL := by
  unfold scan_symbol
  refine ⟨?_, ?_, rfl⟩ <;>
    simp [scanner_ungetchar, punct_loop_indents, punct_loop_setting]

theorem scan_text_pres (pos : Nat) (c0 : Int) (s0 : ScanState) :
    (scan_text pos c0 s0).2.indents = s0.indents ∧
    (scan_text pos c0 s0).2.settingIndent = s0.settingIndent ∧
    (scan_text pos c0 s0).1 ≠ Token.tokINDENT ∧
    (scan_text pos c0 s0).1 ≠ Token.tokUNINDENT := by
  unfold scan_text
  exact ⟨by rw [text_loop_indents, scanner_nextchar_indents],
    by rw [text_loop_setting, scanner_nextchar_setting],
    (text_loop_pres _ _ _ _ _ _).2.2.1, (text_loop_pres _ _ _ _ _ _).2.2.2⟩

theorem scan_number_indents (pos : Nat) (c0 : Int) (blob0 : Option (List Nat)) (s0 : ScanState) :
    (scan_number pos c0 blob0 s0).2.indents = s0.indents := (scan_number_pres pos c0 blob0 s0).1

theorem scan_number_setting (pos : Nat) (c0 : Int) (blob0 : Option (List Nat)) (s0 : ScanState) :
    (scan_number pos c0 blob0 s0).2.settingIndent = s0.settingIndent :=
  (scan_number_pres pos c0 blob0 s0).2.1

theorem scan_number_indent_false (pos : Nat) (c0 : Int) (blob0 : Option (List Nat))
    (s0 : ScanState) : ((scan_number pos c0 blob0 s0).1 = Token.tokINDENT) = False :=
  eq_false (scan_number_pres pos c0 blob0 s0).2.2.1

theorem scan_number_unindent_false (pos : Nat) (c0 : Int) (blob0 : Option (List Nat))
    (s0 : ScanState) : ((scan_number pos c0 blob0 s0).1 = Token.tokUNINDENT) = False :=
  eq_false (scan_number_pres pos c0 blob0 s0).2.2.2

theorem scan_name_indent_false (c0 : Int) (s0 : ScanState) :
    ((scan_name c0 s0).1 = Token.tokINDENT) = False :=
  eq_false (by rw [(scan_name_pres c0 s0).2.2]; exact fun h => Token.noConfusion h)

theorem scan_name_unindent_false (c0 : Int) (s0 : ScanState) :
    ((scan_name c0 s0).1 = Token.tokUNINDENT) = False :=
  eq_false (by rw [(scan_name_pres c0 s0).2.2]; exact fun h => Token.noConfusion h)

theorem scan_symbol_indent_false (c0 : Int) (s0 : ScanState) :
    ((scan_symbol c0 s0).1 = Token.tokINDENT) = False :=
  eq_false (by rw [(scan_symbol_pres c0 s0).2.2]; exact fun h => Token.noConfusion h)

theorem scan_symbol_unindent_false (c0 : Int) (s0 : ScanState) :
    ((scan_symbol c0 s0).1 = Token.tokUNINDENT) = False :=
  eq_false (by rw [(scan_symbol_pres c0 s0).2.2]; exact fun h => Token.noConfusion h)

theorem scan_name_indents (c0 : Int) (s0 : ScanState) :
    (scan_name c0 s0).2.indents = s0.indents := (scan_name_pres c0 s0).1

theorem scan_name_setting (c0 : Int) (s0 : ScanState) :
    (scan_name c0 s0).2.settingIndent = s0.settingIndent := (scan_name_pres c0 s0).2.1

theorem scan_name_tok (c0 : Int) (s0 : ScanState) :
    (scan_name c0 s0).1 = Token.tokNAME := (scan_name_pres c0 s0).2.2

theorem scan_symbol_indents (c0 : Int) (s0 : ScanState) :
    (scan_symbol c0 s0).2.indents = s0.indents := (scan_symbol_pres c0 s0).1

theorem scan_symbol_setting (c0 : Int) (s0 : ScanState) :
    (scan_symbol c0 s0).2.settingIndent = s0.settingIndent := (scan_symbol_pres c0 s0).2.1

theorem scan_symbol_tok (c0 : Int) (s0 : ScanState) :
    (scan_symbol c0 s0).1 = Token.tokSYMBOL := (scan_symbol_pres c0 s0).2.2

theorem scan_text_indents (pos : Nat) (c0 : Int) (s0 : ScanState) :
    (scan_text pos c0 s0).2.indents = s0.indents := (scan_text_pres pos c0 s0).1

theorem scan_text_setting (pos : Nat) (c0 : Int) (s0 : ScanState) :
    (scan_text pos c0 s0).2.settingIndent = s0.settingIndent := (scan_text_pres pos c0 s0).2.1

theorem scan_text_indent_false (pos : Nat) (c0 : Int) (s0 : ScanState) :
    ((scan_text pos c0 s0).1 = Token.tokINDENT) = False :=
  eq_false (scan_text_pres pos c0 s0).2.2.1

theorem scan_text_unindent_false (pos : Nat) (c0 : Int) (s0 : ScanState) :
    ((scan_text pos c0 s0).1 = Token.tokUNINDENT) = False :=
  eq_false (scan_text_pres pos c0 s0).2.2.2

/-- The indent stack is non-empty whenever some column is below its top
(the modelled top of an empty stack is 0). -/
theorem ne_nil_of_lt_indents_top (col : Nat) (l : List Nat) (h : col < indents_top l) :
    l ≠ [] := by
  intro he
  rw [he] at h
  exact absurd h (by simp [indents_top])

/-- One call of the indentation decision with setting_indent clear either
reports the unindent-misalign error, or changes the indent stack length by
exactly the INDENT/UNINDENT token it returns, and leaves setting_indent
clear. -/
theorem scanner_indent_token_step (pos : Nat) (c : Int) (s : ScanState)
    (hset : s.settingIndent = false) :
    (scanner_indent_token pos c s).2.settingIndent = false ∧
    ((scanner_indent_token pos c s).1 = Token.tokERROR ∨
      (scanner_indent_token pos c s).2.indents.length
          + (if (scanner_indent_token pos c s).1 = Token.tokUNINDENT then 1 else 0)
        = s.indents.length
          + (if (scanner_indent_token pos c s).1 = Token.tokINDENT then 1 else 0)) := by
  unfold scanner_indent_token scanner_ungetchar
  dsimp only
  rw [if_neg (by simp [hset])]
  by_cases h2 : s.column > s.indent
  · rw [if_pos h2]
    refine ⟨hset, Or.inr ?_⟩
    show (s.indents ++ [s.column]).length + 0 = s.indents.length + 1
    simp
  · rw [if_neg h2]
    by_cases h3 : s.column < indents_top s.indents
    · rw [if_pos h3]
      have hne : s.indents ≠ [] := ne_nil_of_lt_indents_top s.column s.indents h3
      have hlen : 0 < s.indents.length := List.length_pos.mpr hne
      by_cases h4 : ¬ s.indents.dropLast.length = 0 ∧ indents_top s.indents.dropLast < s.column
      · rw [if_pos h4]
        exact ⟨hset, Or.inl rfl⟩
      · rw [if_neg h4]
        refine ⟨hset, Or.inr ?_⟩
        show s.indents.dropLast.length + 1 = s.indents.length + 0
        rw [List.length_dropLast]
        omega
    · rw [if_neg h3]
      exact ⟨hset, Or.inr (by simp)⟩

/-- One call of scanner_read_body with setting_indent clear either returns
the unindent-misalign ERROR, or changes the indent stack length by exactly
the INDENT/UNINDENT token it returns; setting_indent stays clear. -/
theorem scanner_read_body_step (pos : Nat) (c : Int) (s : ScanState)
    (hset : s.settingIndent = false) :
    (scanner_read_body pos c s).2.settingIndent = false ∧
    ((scanner_read_body pos c s).1 = Token.tokERROR ∨
      (scanner_read_body pos c s).2.indents.length
          + (if (scanner_read_body pos c s).1 = Token.tokUNINDENT then 1 else 0)
        = s.indents.length
          + (if (scanner_read_body pos c s).1 = Token.tokINDENT then 1 else 0)) := by
  unfold scanner_read_body
  dsimp only
  split
  · -- the first non-space follows a newline: the indentation decision
    exact scanner_indent_token_step pos c s hset
  · split
    · -- EOF after whitespace
      refine ⟨hset, Or.inr ?_⟩
      show s.indents.length + 0 = s.indents.length + 0
      rfl
    · -- token dispatch: numbers, names, texts, symbols
      repeat' split
      all_goals refine ⟨?_, Or.inr ?_⟩
      all_goals simp_all only [scan_number_setting, scan_name_setting, scan_symbol_setting,
        scan_text_setting, scan_number_indents, scan_name_indents, scan_symbol_indents,
        scan_text_indents, scan_number_indent_false, scan_number_unindent_false,
        scan_text_indent_false, scan_text_unindent_false,
        scan_name_indent_false, scan_name_unindent_false,
        scan_symbol_indent_false, scan_symbol_unindent_false,
        scanner_nextchar_indents, scanner_nextchar_setting, if_false]

/-- One scanner_read call with setting_indent clear either returns the
unindent-misalign ERROR, or changes the indent stack length by exactly the
INDENT/UNINDENT token it returns; setting_indent stays clear. -/
theorem scanner_read_step (s : ScanState) (hset : s.settingIndent = false) :
    (scanner_read s).2.settingIndent = false ∧
    ((scanner_read s).1 = Token.tokERROR ∨
      (scanner_read s).2.indents.length
          + (if (scanner_read s).1 = Token.tokUNINDENT then 1 else 0)
        = s.indents.length + (if (scanner_read s).1 = Token.tokINDENT then 1 else 0)) := by
  unfold scanner_read
  dsimp only
  split
  · refine ⟨hset, Or.inr ?_⟩
    show s.indents.length + 0 = s.indents.length + 0
    rfl
  · split
    · refine ⟨hset, Or.inr ?_⟩
      rename_i hcond
      have hlen : 0 < s.indents.length := hcond.1
      show s.indents.dropLast.length + 1 = s.indents.length + 0
      rw [List.length_dropLast]
      omega
    · constructor
      · exact (scanner_read_body_step _ _ _
          (by simp only [skip_spaces_setting, scanner_getchar_setting]; exact hset)).1
      · refine ((scanner_read_body_step _ _ _ ?_).2).elim Or.inl
          (fun heq => Or.inr (heq.trans ?_))
        · simp only [skip_spaces_setting, scanner_getchar_setting]
          exact hset
        · simp only [skip_spaces_indents, scanner_getchar_indents]

/-- Along any error-free run with setting_indent clear, the UNINDENT count
never exceeds the stack length plus the INDENT count. -/
theorem scanner_run_balance (n : Nat) : ∀ (s : ScanState),
    s.settingIndent = false →
    Token.tokERROR ∉ scanner_run n s →
    count_tok Token.tokUNINDENT (scanner_run n s) ≤
      s.indents.length + count_tok Token.tokINDENT (scanner_run n s) := by
  induction n with
  | zero =>
    intro s _ _
    simp [scanner_run, count_tok]
  | succ m ih =>
    intro s hset hno
    rw [scanner_run] at hno ⊢
    simp only [List.mem_cons, not_or] at hno
    obtain ⟨hne, hno2⟩ := hno
    obtain ⟨hsets, hor⟩ := scanner_read_step s hset
    rcases hor with herr | heq
    · exact absurd herr.symm hne
    · have hrec := ih (scanner_read s).2 hsets hno2
      rw [count_tok, count_tok]
      by_cases hu : (scanner_read s).1 = Token.tokUNINDENT
      · have hi : ¬ (scanner_read s).1 = Token.tokINDENT := by
          rw [hu]; exact fun h => Token.noConfusion h
        rw [if_pos hu, if_neg hi] at heq ⊢
        omega
      · by_cases hi : (scanner_read s).1 = Token.tokINDENT
        · rw [if_neg hu, if_pos hi] at heq ⊢
          omega
        · rw [if_neg hu, if_neg hi] at heq ⊢
          omega

/-- C3: the claim also states every INDENT is matched by exactly one
UNINDENT before EOF; that part fails (see the counterexample), but this
direction holds: in every prefix of an error-free run from a fresh
scanner, the UNINDENT count never exceeds the INDENT count, and INDENT is
returned only on calls that grow the indent stack by one level. -/
theorem c3_amended :
    (∀ (input : List Int) (n : Nat),
        Token.tokERROR ∉ scanner_run n (scanner_new input) →
        count_tok Token.tokUNINDENT (scanner_run n (scanner_new input)) ≤
          count_tok Token.tokINDENT (scanner_run n (scanner_new input))) ∧
    (∀ s : ScanState, s.settingIndent = false →
        (scanner_read s).1 = Token.tokINDENT →
        (scanner_read s).2.indents.length = s.indents.length + 1) := by
  constructor
  · intro input n hno
    have h := scanner_run_balance n (scanner_new input) rfl hno
    simpa [scanner_new] using h
  · intro s hset hind
    obtain ⟨-, hor⟩ := scanner_read_step s hset
    rcases hor with herr | heq
    · rw [hind] at herr
      exact absurd herr (fun h => Token.noConfusion h)
    · rw [hind] at heq
      simpa using heq

/-- C3 (witness): the balance inequality on a 9-token run of
"a\n  b\n    c\nd", and the stack growth at the INDENT returned by the
second read. -/
theorem c3_amended_witness :
    (count_tok Token.tokUNINDENT (scanner_run 9 (scanner_new inputC2)) ≤
      count_tok Token.tokINDENT (scanner_run 9 (scanner_new inputC2))) ∧
    (scanner_read (scanner_state 1 (scanner_new inputC2))).2.indents.length =
      (scanner_state 1 (scanner_new inputC2)).indents.length + 1 :=
  ⟨c3_amended.1 inputC2 9 (by decide),
   c3_amended.2 (scanner_state 1 (scanner_new inputC2)) (by decide) (by decide)⟩

/-- C10 (witness): the four behaviors at concrete sink states. -/
theorem c10_witness :
    errorv 3 "m" { errors := Option.some [(1, "a")], displayed := [] } =
      { errors := Option.some [(1, "a"), (3, "m")], displayed := [] } ∧
    errorv 3 "m" { errors := Option.none, displayed := [] } =
      { errors := Option.none, displayed := [(3, "m")] } ∧
    errors_commit (Option.some [(1, "a")]) { errors := Option.some [(2, "b")], displayed := [] } =
      { errors := Option.some [(1, "a"), (2, "b")], displayed := [] } ∧
    errors_commit Option.none { errors := Option.some [(2, "b")], displayed := [(0, "z")] } =
      { errors := Option.none, displayed := [(0, "z"), (2, "b")] } := by
  refine ⟨?_, ?_, ?_, ?_⟩
  · have h := c10_error_sink.1 3 "m"
      { errors := Option.some [(1, "a")], displayed := [] } [(1, "a")] rfl
    simpa using h
  · have h := c10_error_sink.2.1 3 "m" { errors := Option.none, displayed := [] } rfl
    simpa using h
  · have h := c10_error_sink.2.2.1
      { errors := Option.some [(2, "b")], displayed := [] } [(1, "a")] [(2, "b")] rfl
    simpa using h
  · have h := c10_error_sink.2.2.2
      { errors := Option.some [(2, "b")], displayed := [(0, "z")] } [(2, "b")] rfl
    simpa using h

end XL
